import Mathlib

/-!
Verification of the window-assembly / imputation controller of the
UC5 edge patient-monitoring pipeline.

The definitions below are a shallow embedding of
`merged_sepsis_news/src/controller.py`: the `Planter` feature-vector
header, the imputation helper `impute_value` (Python `random.randint`
modelled as an explicit entropy draw), the imputation audit log, the
per-packet processing function `parse_packet`, and the heartbeat
sender loop.  The Window Store / Submission Gate of the switch
pipeline, which is not part of the Python sources, is modelled
separately from the specification text (see `GateModel` below).
-/

namespace Controller

/-- CPU port used in both PacketIn and PacketOut (`CPU_PORT = 510`). -/
def CPU_PORT : Nat := 510

/-- Number of patients the heartbeat loop sweeps (`NUM_PATIENTS = 2000`). -/
def NUM_PATIENTS : Nat := 2000

/-- Heartbeat interval in seconds (`HEARTBEAT_NS = 15`). -/
def HEARTBEAT_NS : Nat := 15

/-- EtherType of the Planter feature-vector header (`0x1234`). -/
def ETHERTYPE_PLANTER : Nat := 0x1234

/-- EtherType of the Sensor / heartbeat header (`0x1235`). -/
def ETHERTYPE_SENSOR : Nat := 0x1235

/-- The Planter header: magic bytes `P` `4`, version, type, a 32-bit
patient id, a 48-bit timestamp, ten 16-bit feature fields
`feature0` … `feature9` (modelled as the indexed map `features`,
matching the source's `getattr(planter, f"feature{sensor_id}")`
access pattern), and a 32-bit result field. -/
structure Planter where
  P : Nat
  Four : Nat
  version : Nat
  type : Nat
  patient_id : Nat
  timestamp : Nat
  features : Nat → Nat
  result : Nat

/-- Read of `getattr(planter, f"feature\x7bsensor_id\x7d")`. -/
def getFeature (pl : Planter) (sensor_id : Nat) : Nat :=
  pl.features sensor_id

/-- Write of `setattr(planter, f"feature\x7bsensor_id\x7d", v)`. -/
def setFeature (pl : Planter) (sensor_id v : Nat) : Planter :=
  { pl with features := Function.update pl.features sensor_id v }

/-- Python `random.randint(a, b)`: one draw `r` from the entropy
source, mapped into the inclusive range `[a, b]`. -/
def randint (r a b : Nat) : Nat :=
  a + r % (b - a + 1)

/-- Imputation helper `impute_value(sensor_id)`: plausible random value for each sensor,
given the raw entropy draw `r` consumed by its `random.randint` call. -/
def impute_value (r sensor_id : Nat) : Nat :=
  if sensor_id = 0 then randint r 350 400        -- temperature (scaled by 10)
  else if sensor_id = 1 then randint r 90 100    -- oxygen saturation
  else if sensor_id = 2 then randint r 60 100    -- pulse rate
  else if sensor_id = 3 then randint r 100 140   -- systolic blood pressure
  else if sensor_id = 4 then randint r 12 20     -- respiratory rate
  else if sensor_id = 5 then randint r 0 3       -- avpu
  else if sensor_id = 6 then randint r 0 1       -- supplemental oxygen (binary)
  else if sensor_id = 7 then 1                   -- referral source
  else if sensor_id = 8 then randint r 30 80     -- age
  else if sensor_id = 9 then randint r 0 1       -- sex (0 or 1)
  else 1

/-- One row of the imputation audit CSV, as written by
`log_imputation(recv_time, patient_id, sensor_id, old_val, new_val)`. -/
structure LogRow where
  recv_time : Nat
  patient_id : Nat
  sensor_id : Nat
  old_value : Nat
  new_value : Nat
  deriving DecidableEq, Repr

/-- The sensor ids the imputation loop skips
(`if sensor_id in [5, 6, 7, 8, 9]: continue  # Skip non-numeric fields`). -/
def skipSlots : List Nat := [5, 6, 7, 8, 9]

/-- The `for sensor_id in range(10)` imputation loop of `parse_packet`:
walks the sensor ids in `sids`, skips the ids in `skipSlots`, and for a
remaining id whose carried feature value is `0` draws one entropy value
(`d` is the running draw index into `entropy`), writes the imputed value
into the packet and appends an audit row.  Returns the rewritten packet,
the audit rows appended (in loop order), and the next draw index. -/
def imputeLoop (entropy : Nat → Nat) (recv pid : Nat) :
    List Nat → Planter → Nat → Planter × List LogRow × Nat
  | [], pl, d => (pl, [], d)
  | sid :: rest, pl, d =>
    if sid ∈ skipSlots then
      imputeLoop entropy recv pid rest pl d
    else if getFeature pl sid = 0 then
      let nv := impute_value (entropy d) sid
      let out := imputeLoop entropy recv pid rest (setFeature pl sid nv) (d + 1)
      (out.1, ⟨recv, pid, sid, 0, nv⟩ :: out.2.1, out.2.2)
    else
      imputeLoop entropy recv pid rest pl d

/-- The body of `parse_packet` once a Planter header has been decoded:
run the imputation loop over sensor ids `0 … 9`. -/
def processPlanter (entropy : Nat → Nat) (recv : Nat) (pl : Planter) (d : Nat) :
    Planter × List LogRow × Nat :=
  imputeLoop entropy recv pl.patient_id (List.range 10) pl d

/-- Big-endian read of `len` bytes of `raw` starting at offset `off`
(network byte order, as scapy dissects fixed-width fields). -/
def bytesToNat (raw : List Nat) (off len : Nat) : Nat :=
  ((raw.drop off).take len).foldl (fun a b => a * 256 + b % 256) 0

/-- Dissect the Ethernet header: `Ether(raw_payload)` needs at least the
14-byte header; its EtherType is bytes 12–13.  `none` models the
dissection failure caught by `parse_packet`'s `except` clause. -/
def decodeEtherType (raw : List Nat) : Option Nat :=
  if raw.length < 14 then none else some (bytesToNat raw 12 2)

/-- Dissect the 38-byte Planter header from the bytes following the
Ethernet header; `none` models a too-short payload (scapy dissection
error caught by the `except` clause). -/
def decodePlanter (body : List Nat) : Option Planter :=
  if body.length < 38 then none
  else some
    { P := bytesToNat body 0 1
      Four := bytesToNat body 1 1
      version := bytesToNat body 2 1
      type := bytesToNat body 3 1
      patient_id := bytesToNat body 4 4
      timestamp := bytesToNat body 8 6
      features := fun i => if i < 10 then bytesToNat body (14 + 2 * i) 2 else 0
      result := bytesToNat body 34 4 }

/-- Outcome of `parse_packet` on one raw PacketIn payload.
`droppedNoHeader` is the `"does not contain a Planter header; ignoring"`
log-and-return path; `droppedError` is the `except`-clause
log-and-return path; `submitted` carries the single PacketOut payload
sent to the switch together with the audit rows written. -/
inductive ParseResult where
  | droppedNoHeader
  | droppedError
  | submitted (out : Planter) (log : List LogRow)

/-- Whether a parse outcome submitted a PacketOut. -/
def isSubmitted : ParseResult → Bool
  | .submitted _ _ => true
  | _ => false

/-- Number of PacketOut submissions a parse outcome performs. -/
def submissionCount : ParseResult → Nat
  | .submitted _ _ => 1
  | _ => 0

/-- Packet handler `parse_packet(raw_payload, …)`: dissect the Ethernet frame, check
for the Planter header (EtherType `0x1234`), run the imputation loop,
and send exactly one PacketOut on success.  `d` is the global entropy
draw index: a dropped packet consumes no entropy. -/
def parse_packet (entropy : Nat → Nat) (d recv : Nat) (raw : List Nat) :
    ParseResult × Nat :=
  match decodeEtherType raw with
  | none => (.droppedError, d)
  | some et =>
    if et = ETHERTYPE_PLANTER then
      match decodePlanter (raw.drop 14) with
      | none => (.droppedError, d)
      | some pl =>
        let out := processPlanter entropy recv pl d
        (.submitted out.1 out.2.1, out.2.2)
    else (.droppedNoHeader, d)

/-- The PacketIn handler loop: each inbound payload (paired with its
reception time) is processed independently by `parse_packet`, the
entropy draw index threading through. -/
def processPackets (entropy : Nat → Nat) : Nat → List (Nat × List Nat) → List ParseResult
  | _, [] => []
  | d, (recv, raw) :: rest =>
    let out := parse_packet entropy d recv raw
    out.1 :: processPackets entropy out.2 rest

/-- A Sensor-header heartbeat frame as built by `heartbeat_loop`. -/
structure SensorPkt where
  etherType : Nat
  patient_id : Nat
  sensor_id : Nat
  timestamp : Nat
  feature_value : Nat
  deriving DecidableEq, Repr

/-- The heartbeat frame for one patient:
`Sensor(patient_id=pid, sensor_id=999, timestamp=0, feature_value=0)`
on an Ethernet frame with `type=ETHERTYPE_SENSOR`. -/
def heartbeatPkt (pid : Nat) : SensorPkt :=
  { etherType := ETHERTYPE_SENSOR
    patient_id := pid
    sensor_id := 999
    timestamp := 0
    feature_value := 0 }

/-- One tick of `heartbeat_loop`: the frames sent, one per patient id in
`range(NUM_PATIENTS)`. -/
def heartbeatTick : List SensorPkt :=
  (List.range NUM_PATIENTS).map heartbeatPkt

/-- Wall-clock second at which tick `k` of `heartbeat_loop` starts
(the loop sleeps `HEARTBEAT_NS` seconds after each sweep). -/
def heartbeatSchedule (k : Nat) : Nat :=
  k * HEARTBEAT_NS

/-- Per-patient send outcome within one heartbeat tick: either the
PacketOut succeeded, or the exception was caught and logged
(`print(f"Error sending heartbeat for patient {pid}: …")`) and the
loop moved on to the next patient. -/
inductive SendOutcome where
  | sent (pid : Nat)
  | failedLogged (pid : Nat)
  deriving DecidableEq, Repr

/-- One tick of `heartbeat_loop` with a fallible send: `sendOk pid`
tells whether the PacketOut for patient `pid` succeeds.  The
`try/except` around each send makes the sweep total. -/
def heartbeatTickSend (sendOk : Nat → Bool) : List SendOutcome :=
  (List.range NUM_PATIENTS).map fun pid =>
    if sendOk pid then .sent pid else .failedLogged pid

end Controller

namespace GateModel

/-!
Modelled from the spec: the Window Store and Submission Gate
(spec sections 4.1 and 4.4) are implemented in the P4 switch pipeline of
this repository, which is not among the Python sources under `src/`;
only the controller and the test harnesses that drive it are.  The
definitions in this namespace follow the spec's words: `update_slot`
with silent first-value-wins, `is_complete` over `N = 10` slots, the
`WINDOW_TIMEOUT = 60` seconds staleness check evaluated on every
ingested event, and atomic `snapshot_and_clear` on either finalization
path.
-/

/-- Modelled from the spec: window staleness threshold for forced finalization (60 s). -/
def WINDOW_TIMEOUT : Nat := 60

/-- Modelled from the spec: the per-window slot map, ten optional observed values. -/
def Slots := Fin 10 → Option Nat

/-- Modelled from the spec: the empty slot map of a fresh window. -/
def emptySlots : Slots := fun _ => none

/-- Modelled from the spec: `update_slot` inserts a value at `sid`;
overwriting an already-observed slot is rejected silently (first value
wins). -/
def update_slot (s : Slots) (sid : Fin 10) (v : Nat) : Slots :=
  match s sid with
  | some _ => s
  | none => Function.update s sid (some v)

/-- Modelled from the spec: `is_complete` holds iff all `N` slots are
observed. -/
def is_complete (s : Slots) : Bool :=
  decide (∀ i, (s i).isSome)

/-- Modelled from the spec: a live (non-finalized) window, its slot map
plus the wall-clock receipt time of its first reading, used for the
staleness check. -/
structure Window where
  slots : Slots
  firstSeen : Nat

/-- Modelled from the spec: the events ingested by the gate for one
patient — a real sensor reading (slot, value, receipt time) or a
heartbeat tick at a time. -/
inductive GateEvent where
  | reading (sid : Fin 10) (v : Nat) (t : Nat)
  | heartbeat (t : Nat)

/-- Modelled from the spec: one gate step for one patient.  The state is
`none` when no window is tracked.  A reading creates or updates the
window; completing the last slot submits and atomically clears
(`snapshot_and_clear`).  A heartbeat on a non-empty window whose age
reached `WINDOW_TIMEOUT` imputes the missing slots, submits, and
atomically clears; otherwise it is a no-op.  The second component is
the number of submissions the step emits. -/
def gateStep : Option Window → GateEvent → Option Window × Nat
  | none, .reading sid v t =>
    let s := update_slot emptySlots sid v
    if is_complete s then (none, 1) else (some ⟨s, t⟩, 0)
  | some w, .reading sid v _ =>
    let s := update_slot w.slots sid v
    if is_complete s then (none, 1) else (some ⟨s, w.firstSeen⟩, 0)
  | none, .heartbeat _ => (none, 0)
  | some w, .heartbeat t =>
    if WINDOW_TIMEOUT ≤ t - w.firstSeen then (none, 1) else (some w, 0)

/-- Modelled from the spec: run the gate over a list of events,
counting total submissions. -/
def gateRun : Option Window → List GateEvent → Option Window × Nat
  | s, [] => (s, 0)
  | s, e :: es =>
    let out := gateStep s e
    let rest := gateRun out.1 es
    (rest.1, out.2 + rest.2)

end GateModel

namespace Controller

theorem getFeature_set_same (pl : Planter) (sid v : Nat) :
    getFeature (setFeature pl sid v) sid = v := by
  simp [getFeature, setFeature]

theorem getFeature_set_ne (pl : Planter) (sid j v : Nat) (h : j ≠ sid) :
    getFeature (setFeature pl sid v) j = getFeature pl j := by
  simp [getFeature, setFeature, Function.update_noteq h]

theorem randint_bounds (r a b : Nat) (h : a ≤ b) :
    a ≤ randint r a b ∧ randint r a b ≤ b := by
  unfold randint
  have hlt : r % (b - a + 1) < b - a + 1 := Nat.mod_lt _ (by omega)
  omega

theorem impute_value_pos_of_lt_five (r sid : Nat) (h : sid < 5) :
    0 < impute_value r sid := by
  interval_cases sid
  · have := randint_bounds r 350 400 (by omega)
    simpa [impute_value] using by omega
  · have := randint_bounds r 90 100 (by omega)
    simpa [impute_value] using by omega
  · have := randint_bounds r 60 100 (by omega)
    simpa [impute_value] using by omega
  · have := randint_bounds r 100 140 (by omega)
    simpa [impute_value] using by omega
  · have := randint_bounds r 12 20 (by omega)
    simpa [impute_value] using by omega

end Controller

namespace Controller

theorem imputeLoop_feature_nonzero (entropy : Nat → Nat) (recv pid : Nat)
    (L : List Nat) :
    ∀ (pl : Planter) (d sid : Nat), getFeature pl sid ≠ 0 →
      getFeature (imputeLoop entropy recv pid L pl d).1 sid = getFeature pl sid := by
  induction L with
  | nil => intro pl d sid _; rfl
  | cons j rest ih =>
    intro pl d sid h
    by_cases hskip : j ∈ skipSlots
    · simp only [imputeLoop, if_pos hskip]
      exact ih pl d sid h
    · by_cases hz : getFeature pl j = 0
      · have hsj : sid ≠ j := fun he => h (by rw [he]; exact hz)
        simp only [imputeLoop, if_neg hskip, if_pos hz]
        rw [ih _ _ _ (by rw [getFeature_set_ne pl j sid _ hsj]; exact h)]
        exact getFeature_set_ne pl j sid _ hsj
      · simp only [imputeLoop, if_neg hskip, if_neg hz]
        exact ih pl d sid h

theorem imputeLoop_feature_notmem (entropy : Nat → Nat) (recv pid : Nat)
    (L : List Nat) :
    ∀ (pl : Planter) (d sid : Nat), sid ∉ L →
      getFeature (imputeLoop entropy recv pid L pl d).1 sid = getFeature pl sid := by
  induction L with
  | nil => intro pl d sid _; rfl
  | cons j rest ih =>
    intro pl d sid h
    have hsj : sid ≠ j := fun he => h (by rw [he]; exact List.mem_cons_self j rest)
    have hr : sid ∉ rest := fun hm => h (List.mem_cons_of_mem _ hm)
    by_cases hskip : j ∈ skipSlots
    · simp only [imputeLoop, if_pos hskip]
      exact ih pl d sid hr
    · by_cases hz : getFeature pl j = 0
      · simp only [imputeLoop, if_neg hskip, if_pos hz]
        rw [ih _ _ _ hr]
        exact getFeature_set_ne pl j sid _ hsj
      · simp only [imputeLoop, if_neg hskip, if_neg hz]
        exact ih pl d sid hr

theorem imputeLoop_rows_mem (entropy : Nat → Nat) (recv pid : Nat) (L : List Nat) :
    ∀ (pl : Planter) (d : Nat), L.Nodup →
      ∀ row ∈ (imputeLoop entropy recv pid L pl d).2.1,
        row.sensor_id ∈ L ∧ row.sensor_id ∉ skipSlots ∧ row.old_value = 0 ∧
        row.recv_time = recv ∧ row.patient_id = pid ∧
        getFeature pl row.sensor_id = 0 := by
  induction L with
  | nil => intro pl d _ row hrow; simp [imputeLoop] at hrow
  | cons j rest ih =>
    intro pl d hnd row hrow
    have hndr : rest.Nodup := (List.nodup_cons.mp hnd).2
    have hjr : j ∉ rest := (List.nodup_cons.mp hnd).1
    by_cases hskip : j ∈ skipSlots
    · simp only [imputeLoop, if_pos hskip] at hrow
      obtain ⟨h1, h2, h3, h4, h5, h6⟩ := ih pl d hndr row hrow
      exact ⟨List.mem_cons_of_mem _ h1, h2, h3, h4, h5, h6⟩
    · by_cases hz : getFeature pl j = 0
      · simp only [imputeLoop, if_neg hskip, if_pos hz] at hrow
        rcases List.mem_cons.mp hrow with hrow | hrow
        · subst hrow
          exact ⟨List.mem_cons_self _ _, hskip, rfl, rfl, rfl, hz⟩
        · obtain ⟨h1, h2, h3, h4, h5, h6⟩ := ih _ _ hndr row hrow
          have hne : row.sensor_id ≠ j := fun he => hjr (by rw [← he]; exact h1)
          refine ⟨List.mem_cons_of_mem _ h1, h2, h3, h4, h5, ?_⟩
          rw [← getFeature_set_ne pl j row.sensor_id (impute_value (entropy d) j) hne]
          exact h6
      · simp only [imputeLoop, if_neg hskip, if_neg hz] at hrow
        obtain ⟨h1, h2, h3, h4, h5, h6⟩ := ih pl d hndr row hrow
        exact ⟨List.mem_cons_of_mem _ h1, h2, h3, h4, h5, h6⟩

end Controller

namespace Controller

theorem imputeLoop_countP (entropy : Nat → Nat) (recv pid : Nat) (L : List Nat) :
    ∀ (pl : Planter) (d sid : Nat), L.Nodup →
      ((imputeLoop entropy recv pid L pl d).2.1.countP
          (fun row => decide (row.sensor_id = sid))) =
        if sid ∈ L ∧ sid ∉ skipSlots ∧ getFeature pl sid = 0 then 1 else 0 := by
  induction L with
  | nil => intro pl d sid _; simp [imputeLoop]
  | cons j rest ih =>
    intro pl d sid hnd
    have hndr : rest.Nodup := (List.nodup_cons.mp hnd).2
    have hjr : j ∉ rest := (List.nodup_cons.mp hnd).1
    by_cases hskip : j ∈ skipSlots
    · simp only [imputeLoop, if_pos hskip]
      rw [ih pl d sid hndr]
      by_cases hsj : sid = j
      · subst hsj
        simp [hskip, hjr]
      · simp [List.mem_cons, hsj]
    · by_cases hz : getFeature pl j = 0
      · simp only [imputeLoop, if_neg hskip, if_pos hz]
        rw [List.countP_cons, ih _ (d + 1) sid hndr]
        by_cases hsj : sid = j
        · subst hsj
          simp [hjr, hskip, hz]
        · have hset : getFeature (setFeature pl j (impute_value (entropy d) j)) sid =
              getFeature pl sid := getFeature_set_ne pl j sid _ hsj
          have hjs : ¬j = sid := fun he => hsj he.symm
          simp [List.mem_cons, hsj, hjs, hset]
      · simp only [imputeLoop, if_neg hskip, if_neg hz]
        rw [ih pl d sid hndr]
        by_cases hsj : sid = j
        · subst hsj
          simp [hjr, hz]
        · simp [List.mem_cons, hsj]

theorem imputeLoop_zero_slot (entropy : Nat → Nat) (recv pid : Nat) (L : List Nat) :
    ∀ (pl : Planter) (d sid : Nat), L.Nodup → sid ∈ L → sid ∉ skipSlots →
      getFeature pl sid = 0 →
      ∃ r, getFeature (imputeLoop entropy recv pid L pl d).1 sid = impute_value r sid ∧
        (⟨recv, pid, sid, 0, impute_value r sid⟩ : LogRow) ∈
          (imputeLoop entropy recv pid L pl d).2.1 := by
  induction L with
  | nil => intro pl d sid _ hmem; exact absurd hmem (List.not_mem_nil _)
  | cons j rest ih =>
    intro pl d sid hnd hmem hnskip hz0
    have hndr : rest.Nodup := (List.nodup_cons.mp hnd).2
    have hjr : j ∉ rest := (List.nodup_cons.mp hnd).1
    by_cases hskip : j ∈ skipSlots
    · have hsj : sid ≠ j := fun he => hnskip (by rw [he]; exact hskip)
      have hmr : sid ∈ rest := by
        rcases List.mem_cons.mp hmem with h | h
        · exact absurd h hsj
        · exact h
      simp only [imputeLoop, if_pos hskip]
      exact ih pl d sid hndr hmr hnskip hz0
    · by_cases hsj : sid = j
      · subst hsj
        simp only [imputeLoop, if_neg hskip, if_pos hz0]
        refine ⟨entropy d, ?_, List.mem_cons_self _ _⟩
        rw [imputeLoop_feature_notmem entropy recv pid rest _ _ _ hjr]
        exact getFeature_set_same pl sid _
      · have hmr : sid ∈ rest := by
          rcases List.mem_cons.mp hmem with h | h
          · exact absurd h hsj
          · exact h
        by_cases hz : getFeature pl j = 0
        · simp only [imputeLoop, if_neg hskip, if_pos hz]
          have hz0' : getFeature (setFeature pl j (impute_value (entropy d) j)) sid = 0 := by
            rw [getFeature_set_ne pl j sid _ hsj]; exact hz0
          obtain ⟨r, h1, h2⟩ := ih _ (d + 1) sid hndr hmr hnskip hz0'
          exact ⟨r, h1, List.mem_cons_of_mem _ h2⟩
        · simp only [imputeLoop, if_neg hskip, if_neg hz]
          exact ih pl d sid hndr hmr hnskip hz0

end Controller

namespace Controller

theorem imputeLoop_pattern_only (entropy : Nat → Nat) (r1 r2 p1 p2 : Nat)
    (L : List Nat) :
    ∀ (pl q : Planter) (d : Nat), L.Nodup →
      (∀ sid, getFeature pl sid = 0 ↔ getFeature q sid = 0) →
      ((imputeLoop entropy r1 p1 L pl d).2.1.map
          (fun row => (row.sensor_id, row.new_value)) =
        (imputeLoop entropy r2 p2 L q d).2.1.map
          (fun row => (row.sensor_id, row.new_value))) ∧
      (imputeLoop entropy r1 p1 L pl d).2.2 = (imputeLoop entropy r2 p2 L q d).2.2 ∧
      ∀ sid, getFeature pl sid = 0 →
        getFeature (imputeLoop entropy r1 p1 L pl d).1 sid =
          getFeature (imputeLoop entropy r2 p2 L q d).1 sid := by
  induction L with
  | nil =>
    intro pl q d _ h
    refine ⟨rfl, rfl, fun sid hz => ?_⟩
    show getFeature pl sid = getFeature q sid
    rw [hz, (h sid).mp hz]
  | cons j rest ih =>
    intro pl q d hnd h
    have hndr : rest.Nodup := (List.nodup_cons.mp hnd).2
    have hjr : j ∉ rest := (List.nodup_cons.mp hnd).1
    by_cases hskip : j ∈ skipSlots
    · simp only [imputeLoop, if_pos hskip]
      exact ih pl q d hndr h
    · by_cases hz : getFeature pl j = 0
      · have hzq : getFeature q j = 0 := (h j).mp hz
        simp only [imputeLoop, if_neg hskip, if_pos hz, if_pos hzq]
        have h' : ∀ sid,
            getFeature (setFeature pl j (impute_value (entropy d) j)) sid = 0 ↔
            getFeature (setFeature q j (impute_value (entropy d) j)) sid = 0 := by
          intro sid
          by_cases hsj : sid = j
          · subst hsj
            rw [getFeature_set_same, getFeature_set_same]
          · rw [getFeature_set_ne pl j sid _ hsj, getFeature_set_ne q j sid _ hsj]
            exact h sid
        obtain ⟨ihm, ihd, ihf⟩ := ih _ _ (d + 1) hndr h'
        refine ⟨?_, ihd, ?_⟩
        · simp only [List.map_cons, ihm]
        · intro sid hz0
          by_cases hsj : sid = j
          · subst hsj
            rw [imputeLoop_feature_notmem entropy r1 p1 rest _ _ _ hjr,
              imputeLoop_feature_notmem entropy r2 p2 rest _ _ _ hjr,
              getFeature_set_same, getFeature_set_same]
          · exact ihf sid (by rw [getFeature_set_ne pl j sid _ hsj]; exact hz0)
      · have hzq : getFeature q j ≠ 0 := fun hq => hz ((h j).mpr hq)
        simp only [imputeLoop, if_neg hskip, if_neg hz, if_neg hzq]
        exact ih pl q d hndr h

theorem imputeLoop_rows_nil (entropy : Nat → Nat) (recv pid : Nat) (L : List Nat)
    (pl : Planter) (d : Nat) (hnd : L.Nodup)
    (h : ∀ sid ∈ L, sid ∉ skipSlots → getFeature pl sid ≠ 0) :
    (imputeLoop entropy recv pid L pl d).2.1 = [] := by
  rcases he : (imputeLoop entropy recv pid L pl d).2.1 with _ | ⟨row, rows⟩
  · rfl
  · exfalso
    have hrow : row ∈ (imputeLoop entropy recv pid L pl d).2.1 := by
      rw [he]; exact List.mem_cons_self _ _
    obtain ⟨h1, h2, _, _, _, h6⟩ :=
      imputeLoop_rows_mem entropy recv pid L pl d hnd row hrow
    exact h row.sensor_id h1 h2 h6

end Controller

namespace GateModel

theorem update_slot_of_none (s : Slots) (sid : Fin 10) (v : Nat) (h : s sid = none) :
    update_slot s sid v = Function.update s sid (some v) := by
  unfold update_slot
  rw [h]

theorem update_slot_of_some (s : Slots) (sid : Fin 10) (x v : Nat) (h : s sid = some x) :
    update_slot s sid v = s := by
  unfold update_slot
  rw [h]

theorem foldl_update_slot_filled (sid : Fin 10) (x : Nat) :
    ∀ (vs : List Nat) (s : Slots), s sid = some x →
      (vs.foldl (fun s' v => update_slot s' sid v) s) sid = some x := by
  intro vs
  induction vs with
  | nil => intro s h; exact h
  | cons v vs ih =>
    intro s h
    simp only [List.foldl_cons]
    rw [update_slot_of_some s sid x v h]
    exact ih s h

theorem gateRun_append (s : Option Window) (l1 l2 : List GateEvent) :
    gateRun s (l1 ++ l2) =
      ((gateRun (gateRun s l1).1 l2).1,
        (gateRun s l1).2 + (gateRun (gateRun s l1).1 l2).2) := by
  induction l1 generalizing s with
  | nil => simp [gateRun]
  | cons e es ih =>
    simp only [List.cons_append, gateRun, List.append_eq]
    rw [ih (gateStep s e).1]
    simp [Nat.add_assoc]

theorem gateRun_heartbeats_idle (ts : List Nat) :
    gateRun none (ts.map GateEvent.heartbeat) = (none, 0) := by
  induction ts with
  | nil => rfl
  | cons t ts ih => simp [gateRun, gateStep, ih]

theorem gateRun_heartbeats_fresh (sl : Slots) (fs : Nat) (ts : List Nat)
    (h : ∀ t ∈ ts, t - fs < WINDOW_TIMEOUT) :
    gateRun (some ⟨sl, fs⟩) (ts.map GateEvent.heartbeat) = (some ⟨sl, fs⟩, 0) := by
  induction ts with
  | nil => rfl
  | cons t ts ih =>
    have ht : ¬ WINDOW_TIMEOUT ≤ t - fs := by
      have := h t (List.mem_cons_self _ _); omega
    simp [gateRun, gateStep, ht, ih (fun u hu => h u (List.mem_cons_of_mem _ hu))]

theorem gateRun_heartbeats_cases (w : Window) (ts : List Nat) :
    gateRun (some w) (ts.map GateEvent.heartbeat) = (some w, 0) ∨
    gateRun (some w) (ts.map GateEvent.heartbeat) = (none, 1) := by
  induction ts with
  | nil => exact Or.inl rfl
  | cons t ts ih =>
    by_cases h : WINDOW_TIMEOUT ≤ t - w.firstSeen
    · right
      simp [gateRun, gateStep, h, gateRun_heartbeats_idle]
    · rcases ih with h1 | h1
      · left
        simp [gateRun, gateStep, h, h1]
      · right
        simp [gateRun, gateStep, h, h1]

theorem is_complete_fill_last (sl : Slots) (m : Fin 10) (v : Nat)
    (hm : sl m = none) (ho : ∀ i, i ≠ m → (sl i).isSome) :
    is_complete (update_slot sl m v) = true := by
  rw [update_slot_of_none sl m v hm]
  simp only [is_complete, decide_eq_true_eq]
  intro i
  by_cases hi : i = m
  · subst hi
    simp
  · rw [Function.update_noteq hi]
    exact ho i hi

theorem not_complete_single (m : Fin 10) (v : Nat) :
    is_complete (update_slot emptySlots m v) = false := by
  have he : emptySlots m = none := rfl
  rw [update_slot_of_none emptySlots m v he]
  simp only [is_complete, decide_eq_false_iff_not]
  intro hall
  obtain ⟨i, hi⟩ := exists_ne m
  have := hall i
  rw [Function.update_noteq hi] at this
  simp [emptySlots] at this

end GateModel

namespace Controller

theorem imputeLoop_feature_skip (entropy : Nat → Nat) (recv pid : Nat) (L : List Nat) :
    ∀ (pl : Planter) (d sid : Nat), sid ∈ skipSlots →
      getFeature (imputeLoop entropy recv pid L pl d).1 sid = getFeature pl sid := by
  induction L with
  | nil => intros; rfl
  | cons j rest ih =>
    intro pl d sid hs
    by_cases hskip : j ∈ skipSlots
    · simp only [imputeLoop, if_pos hskip]
      exact ih pl d sid hs
    · by_cases hz : getFeature pl j = 0
      · have hsj : sid ≠ j := fun he => hskip (by rw [← he]; exact hs)
        simp only [imputeLoop, if_neg hskip, if_pos hz]
        rw [ih _ _ _ hs]
        exact getFeature_set_ne pl j sid _ hsj
      · simp only [imputeLoop, if_neg hskip, if_neg hz]
        exact ih pl d sid hs

end Controller

open Controller in
/-- C3: `impute_value` always returns a value within the sensor's
configured plausible range — sensor 0 (temperature, ×10 scaling) in
[350,400], sensor 1 (oxygen saturation) in [90,100], sensor 2 (pulse)
in [60,100], sensor 3 (systolic BP) in [100,140], sensor 4
(respiratory rate) in [12,20], sensor 5 (AVPU) in {0,1,2,3}, the
binary-flag sensors 6 and 9 in {0,1}, sensor 8 (age) in [30,80] — and
sensor 7 as well as any sensor index with no configured range yields
the constant 1, for every entropy draw `r`. -/
theorem impute_value_range_conformance (r : Nat) :
    (350 ≤ impute_value r 0 ∧ impute_value r 0 ≤ 400) ∧
    (90 ≤ impute_value r 1 ∧ impute_value r 1 ≤ 100) ∧
    (60 ≤ impute_value r 2 ∧ impute_value r 2 ≤ 100) ∧
    (100 ≤ impute_value r 3 ∧ impute_value r 3 ≤ 140) ∧
    (12 ≤ impute_value r 4 ∧ impute_value r 4 ≤ 20) ∧
    impute_value r 5 ≤ 3 ∧
    impute_value r 6 ≤ 1 ∧
    impute_value r 7 = 1 ∧
    (30 ≤ impute_value r 8 ∧ impute_value r 8 ≤ 80) ∧
    impute_value r 9 ≤ 1 ∧
    (∀ sid, 10 ≤ sid → impute_value r sid = 1) := by
  refine ⟨?_, ?_, ?_, ?_, ?_, ?_, ?_, ?_, ?_, ?_, ?_⟩
  · simpa [impute_value] using randint_bounds r 350 400 (by omega)
  · simpa [impute_value] using randint_bounds r 90 100 (by omega)
  · simpa [impute_value] using randint_bounds r 60 100 (by omega)
  · simpa [impute_value] using randint_bounds r 100 140 (by omega)
  · simpa [impute_value] using randint_bounds r 12 20 (by omega)
  · simpa [impute_value] using (randint_bounds r 0 3 (by omega)).2
  · simpa [impute_value] using (randint_bounds r 0 1 (by omega)).2
  · simp [impute_value]
  · simpa [impute_value] using randint_bounds r 30 80 (by omega)
  · simpa [impute_value] using (randint_bounds r 0 1 (by omega)).2
  · intro sid h
    have h0 : sid ≠ 0 := by omega
    have h1 : sid ≠ 1 := by omega
    have h2 : sid ≠ 2 := by omega
    have h3 : sid ≠ 3 := by omega
    have h4 : sid ≠ 4 := by omega
    have h5 : sid ≠ 5 := by omega
    have h6 : sid ≠ 6 := by omega
    have h7 : sid ≠ 7 := by omega
    have h8 : sid ≠ 8 := by omega
    have h9 : sid ≠ 9 := by omega
    simp [impute_value, h0, h1, h2, h3, h4, h5, h6, h7, h8, h9]

open Controller in
/-- Witness for C3: evaluated at entropy draw 0, the oxygen-saturation
imputation lies in range and the unconfigured sensor index 12 yields 1. -/
theorem impute_value_range_conformance_witness :
    (10 ≤ 12 ∧ impute_value 0 12 = 1) ∧ 90 ≤ impute_value 0 1 :=
  ⟨⟨by decide, (impute_value_range_conformance 0).2.2.2.2.2.2.2.2.2.2 12 (by decide)⟩,
    (impute_value_range_conformance 0).2.1.1⟩

open Controller in
/-- C9: `impute_value` depends only on the entropy source and the
sensor id — never on other slots or patient state.  Two runs of the
per-packet imputation over packets with the same missing-slot pattern,
from the same entropy stream position, impute identical values into
identical slots, consume the same number of draws, and agree on every
originally-missing feature, regardless of the packets' patient ids,
timestamps, reception times, or the values carried in observed slots. -/
theorem impute_depends_only_on_entropy_and_sensor (entropy : Nat → Nat)
    (recv1 recv2 : Nat) (pl q : Planter) (d : Nat)
    (h : ∀ sid, getFeature pl sid = 0 ↔ getFeature q sid = 0) :
    ((processPlanter entropy recv1 pl d).2.1.map
        (fun row => (row.sensor_id, row.new_value)) =
      (processPlanter entropy recv2 q d).2.1.map
        (fun row => (row.sensor_id, row.new_value))) ∧
    (processPlanter entropy recv1 pl d).2.2 = (processPlanter entropy recv2 q d).2.2 ∧
    ∀ sid, getFeature pl sid = 0 →
      getFeature (processPlanter entropy recv1 pl d).1 sid =
        getFeature (processPlanter entropy recv2 q d).1 sid := by
  unfold processPlanter
  exact imputeLoop_pattern_only entropy recv1 recv2 pl.patient_id q.patient_id
    (List.range 10) pl q d (List.nodup_range 10) h

namespace Controller

/-- First run for the C9 witness: patient 1000, slot 2 missing, other
slots carrying 7. -/
def ninePktA : Planter := ⟨0x50, 0x34, 1, 1, 1000, 5, fun i => if i = 2 then 0 else 7, 0⟩

/-- Second run for the C9 witness: patient 2000, slot 2 missing, other
slots carrying 3. -/
def ninePktB : Planter := ⟨0x50, 0x34, 1, 1, 2000, 9, fun i => if i = 2 then 0 else 3, 4⟩

end Controller

open Controller in
/-- Witness for C9: the two concrete runs with the same missing-slot
pattern impute the same (slot, value) pairs. -/
theorem impute_depends_only_on_entropy_and_sensor_witness :
    (processPlanter (fun d => d + 1) 11 ninePktA 0).2.1.map
        (fun row => (row.sensor_id, row.new_value)) =
      (processPlanter (fun d => d + 1) 22 ninePktB 0).2.1.map
        (fun row => (row.sensor_id, row.new_value)) :=
  (impute_depends_only_on_entropy_and_sensor (fun d => d + 1) 11 22 ninePktA ninePktB 0
    (by intro sid; by_cases h : sid = 2 <;> simp [ninePktA, ninePktB, getFeature, h])).1

open Controller in
/-- C6: at finalization, the imputation audit log receives exactly one
row per imputed slot; every row carries the reception time, the
patient id, the imputed sensor id, `old_value = 0` and the new value;
and a packet finalized with zero imputed slots appends no rows. -/
theorem imputation_audit_log_rows (entropy : Nat → Nat) (recv : Nat)
    (pl : Planter) (d : Nat) :
    (∀ row ∈ (processPlanter entropy recv pl d).2.1,
      row.old_value = 0 ∧ row.recv_time = recv ∧ row.patient_id = pl.patient_id) ∧
    (∀ sid, ((processPlanter entropy recv pl d).2.1.countP
        (fun row => decide (row.sensor_id = sid))) =
      if sid < 10 ∧ sid ∉ skipSlots ∧ getFeature pl sid = 0 then 1 else 0) ∧
    ((∀ sid, sid < 10 → sid ∉ skipSlots → getFeature pl sid ≠ 0) →
      (processPlanter entropy recv pl d).2.1 = []) := by
  unfold processPlanter
  refine ⟨?_, ?_, ?_⟩
  · intro row hrow
    obtain ⟨_, _, h3, h4, h5, _⟩ :=
      imputeLoop_rows_mem entropy recv pl.patient_id (List.range 10) pl d
        (List.nodup_range 10) row hrow
    exact ⟨h3, h4, h5⟩
  · intro sid
    rw [imputeLoop_countP entropy recv pl.patient_id (List.range 10) pl d sid
      (List.nodup_range 10)]
    simp [List.mem_range]
  · intro h
    exact imputeLoop_rows_nil entropy recv pl.patient_id (List.range 10) pl d
      (List.nodup_range 10) (fun sid hmem hns => h sid (List.mem_range.mp hmem) hns)

namespace Controller

/-- Packet for the C6 witness: patient 7, slot 3 missing, other slots 9. -/
def auditPkt : Planter := ⟨0x50, 0x34, 1, 1, 7, 0, fun i => if i = 3 then 0 else 9, 0⟩

end Controller

open Controller in
/-- Witness for C6: the single audit row produced for `auditPkt`
(slot 3, imputed value 105 from entropy draw 5) has `old_value = 0`,
the reception time 42 and patient id 7. -/
theorem imputation_audit_log_rows_witness :
    ((⟨42, 7, 3, 0, 105⟩ : LogRow) ∈ (processPlanter (fun _ => 5) 42 auditPkt 0).2.1) ∧
    ((⟨42, 7, 3, 0, 105⟩ : LogRow).old_value = 0 ∧
      (⟨42, 7, 3, 0, 105⟩ : LogRow).recv_time = 42 ∧
      (⟨42, 7, 3, 0, 105⟩ : LogRow).patient_id = auditPkt.patient_id) :=
  ⟨by decide,
    (imputation_audit_log_rows (fun _ => 5) 42 auditPkt 0).1 ⟨42, 7, 3, 0, 105⟩ (by decide)⟩

namespace Controller

/-- Decoding-failure condition for an inbound raw payload: the Ethernet
dissection fails (too short), or the frame carries no Planter header
(wrong EtherType), or the Planter dissection fails (too short). -/
def decodeFails (raw : List Nat) : Prop :=
  decodeEtherType raw = none ∨
  (∃ et, decodeEtherType raw = some et ∧ et ≠ ETHERTYPE_PLANTER) ∨
  (decodeEtherType raw = some ETHERTYPE_PLANTER ∧ decodePlanter (raw.drop 14) = none)

end Controller

open Controller in
/-- C7: a malformed or too-short payload, or a packet without the
Planter header, is non-fatal: `parse_packet` drops it (the drop is
logged, no PacketOut submission occurs, no entropy is consumed,
no exception escapes), and the processing of every subsequent packet
is exactly as if the offending packet had not arrived. -/
theorem malformed_packet_nonfatal (entropy : Nat → Nat) (d recv : Nat)
    (raw : List Nat) (h : decodeFails raw) :
    isSubmitted (parse_packet entropy d recv raw).1 = false ∧
    (parse_packet entropy d recv raw).2 = d ∧
    ∀ rest, processPackets entropy d ((recv, raw) :: rest) =
      (parse_packet entropy d recv raw).1 :: processPackets entropy d rest := by
  have hmain : isSubmitted (parse_packet entropy d recv raw).1 = false ∧
      (parse_packet entropy d recv raw).2 = d := by
    rcases h with h | ⟨et, het, hne⟩ | ⟨het, hpl⟩
    · simp [parse_packet, h, isSubmitted]
    · simp [parse_packet, het, hne, isSubmitted]
    · simp [parse_packet, het, hpl, isSubmitted]
  refine ⟨hmain.1, hmain.2, fun rest => ?_⟩
  simp only [processPackets]
  rw [hmain.2]

open Controller in
/-- Witness for C7: the empty payload is dropped without a submission
and leaves the processing of a following packet unchanged. -/
theorem malformed_packet_nonfatal_witness :
    isSubmitted (parse_packet (fun _ => 0) 0 0 []).1 = false ∧
    processPackets (fun _ => 0) 0 ((0, []) :: [(1, [9])]) =
      (parse_packet (fun _ => 0) 0 0 []).1 :: processPackets (fun _ => 0) 0 [(1, [9])] :=
  ⟨(malformed_packet_nonfatal (fun _ => 0) 0 0 [] (Or.inl (by decide))).1,
    (malformed_packet_nonfatal (fun _ => 0) 0 0 [] (Or.inl (by decide))).2.2 [(1, [9])]⟩

open Controller in
/-- C5: the heartbeat loop fires every `HEARTBEAT_NS = 15` seconds and
on each tick sends, for every patient id in `[0, NUM_PATIENTS)` with
`NUM_PATIENTS = 2000`, one synthetic heartbeat reading with
`sensor_id = 999` and feature value 0, carried on the Sensor EtherType
(`0x1235`) — the same ingestion path as real sensor readings. -/
theorem heartbeat_scheduler_spec :
    HEARTBEAT_NS = 15 ∧ NUM_PATIENTS = 2000 ∧
    (∀ k, heartbeatSchedule (k + 1) = heartbeatSchedule k + HEARTBEAT_NS) ∧
    heartbeatTick.length = NUM_PATIENTS ∧
    (∀ pid, pid < NUM_PATIENTS → heartbeatTick[pid]? = some (heartbeatPkt pid)) ∧
    ∀ pid, (heartbeatPkt pid).sensor_id = 999 ∧ (heartbeatPkt pid).feature_value = 0 ∧
      (heartbeatPkt pid).patient_id = pid ∧
      (heartbeatPkt pid).etherType = ETHERTYPE_SENSOR := by
  refine ⟨rfl, rfl, fun k => ?_, ?_, fun pid h => ?_, fun pid => ⟨rfl, rfl, rfl, rfl⟩⟩
  · simp [heartbeatSchedule, Nat.succ_mul]
  · simp [heartbeatTick]
  · simp [heartbeatTick, List.getElem?_map, List.getElem?_range, h]

open Controller in
/-- Witness for C5: patient 0 is in range and its tick entry is its
heartbeat frame. -/
theorem heartbeat_scheduler_spec_witness :
    (0 : Nat) < NUM_PATIENTS ∧ heartbeatTick[(0 : Nat)]? = some (heartbeatPkt 0) :=
  ⟨by decide, heartbeat_scheduler_spec.2.2.2.2.1 0 (by decide)⟩

open Controller in
/-- C8: within a single heartbeat tick, a send failure for one patient
is caught and logged as that patient's outcome, and the heartbeats of
every other patient in the tick are attempted and unaffected: the tick
still covers all `NUM_PATIENTS` patients, and any other patient's
outcome is independent of whether that one send failed. -/
theorem heartbeat_send_failure_isolated (sendOk : Nat → Bool) :
    (heartbeatTickSend sendOk).length = NUM_PATIENTS ∧
    (∀ pid, pid < NUM_PATIENTS →
      (heartbeatTickSend sendOk)[pid]? =
        some (if sendOk pid then SendOutcome.sent pid else SendOutcome.failedLogged pid)) ∧
    ∀ (sendOkB : Nat → Bool) (p : Nat), (∀ q, q ≠ p → sendOk q = sendOkB q) →
      ∀ q, q < NUM_PATIENTS → q ≠ p →
        (heartbeatTickSend sendOk)[q]? = (heartbeatTickSend sendOkB)[q]? := by
  refine ⟨by simp [heartbeatTickSend], fun pid h => ?_,
    fun sendOkB p hagree q hq hne => ?_⟩
  · simp [heartbeatTickSend, List.getElem?_map, List.getElem?_range, h]
  · simp [heartbeatTickSend, List.getElem?_map, List.getElem?_range, hq, hagree q hne]

open Controller in
/-- Witness for C8: flipping patient 5's send to a failure leaves
patient 6's outcome in the same tick unchanged. -/
theorem heartbeat_send_failure_isolated_witness :
    ((6 : Nat) < NUM_PATIENTS ∧ (6 : Nat) ≠ 5) ∧
    (heartbeatTickSend (fun _ => true))[(6 : Nat)]? =
      (heartbeatTickSend (fun q => decide (q ≠ 5)))[(6 : Nat)]? :=
  ⟨⟨by decide, by decide⟩,
    (heartbeat_send_failure_isolated (fun _ => true)).2.2 (fun q => decide (q ≠ 5)) 5
      (fun q hq => by simp [hq]) 6 (by decide) (by decide)⟩

open Controller GateModel in
/-- C4: a slot already holding an observed value is never overwritten.
In the spec-modelled Window Store, for every sequence of `update_slot`
calls on the same slot the first observed value is retained and every
later write is silently rejected; in the controller, processing a
feature vector never modifies a feature field whose carried value is
non-zero. -/
theorem observed_slot_never_overwritten :
    (∀ (s : Slots) (sid : Fin 10) (v0 : Nat) (vs : List Nat),
      s sid = none →
      (vs.foldl (fun s' v => update_slot s' sid v) (update_slot s sid v0)) sid =
        some v0) ∧
    ∀ (entropy : Nat → Nat) (recv : Nat) (pl : Planter) (d sid : Nat),
      getFeature pl sid ≠ 0 →
      getFeature (processPlanter entropy recv pl d).1 sid = getFeature pl sid := by
  constructor
  · intro s sid v0 vs h
    have h0 : update_slot s sid v0 sid = some v0 := by
      rw [update_slot_of_none s sid v0 h]
      simp
    exact foldl_update_slot_filled sid v0 vs _ h0
  · intro entropy recv pl d sid h
    unfold processPlanter
    exact imputeLoop_feature_nonzero entropy recv pl.patient_id (List.range 10) pl d sid h

namespace Controller

/-- Packet for the C4 witness: all ten feature slots observed non-zero. -/
def fullPkt : Planter := ⟨0x50, 0x34, 1, 1, 3, 0, fun i => i + 1, 0⟩

end Controller

open Controller GateModel in
/-- Witness for C4: slot 3, first written with 7, still holds 7 after
further writes 4, 5, 6; and the controller leaves `fullPkt`'s non-zero
slot 2 untouched. -/
theorem observed_slot_never_overwritten_witness :
    ((([4, 5, 6] : List Nat).foldl
        (fun s' v => update_slot s' 3 v)
        (update_slot (fun _ => none) 3 7)) 3 = some 7) ∧
    (getFeature fullPkt 2 ≠ 0 ∧
      getFeature (processPlanter (fun _ => 0) 0 fullPkt 0).1 2 = getFeature fullPkt 2) :=
  ⟨observed_slot_never_overwritten.1 (fun _ => none) 3 7 [4, 5, 6] rfl,
    ⟨by decide, observed_slot_never_overwritten.2 (fun _ => 0) 0 fullPkt 0 2 (by decide)⟩⟩

open Controller GateModel in
/-- C2: at most one submission per patient window.  In the
spec-modelled Submission Gate, for any interleaving of a completing
sensor reading with concurrent heartbeat ticks (ticks within the
timeout horizon of the reading) over a window missing exactly one
slot, exactly one submission is produced; and in the controller,
`parse_packet` performs at most one PacketOut per inbound payload, and
exactly one for every successfully parsed feature-vector packet. -/
theorem exactly_once_submission :
    (∀ (w : Window) (m : Fin 10) (v tr : Nat) (pre post : List Nat),
      w.slots m = none →
      (∀ i, i ≠ m → ((w.slots i).isSome = true)) →
      (∀ t ∈ post, t < tr + WINDOW_TIMEOUT) →
      (gateRun (some w)
        (pre.map GateEvent.heartbeat ++
          GateEvent.reading m v tr :: post.map GateEvent.heartbeat)).2 = 1) ∧
    ∀ (entropy : Nat → Nat) (d recv : Nat) (raw : List Nat),
      submissionCount (parse_packet entropy d recv raw).1 ≤ 1 ∧
      (decodeEtherType raw = some ETHERTYPE_PLANTER →
        ∀ pl, decodePlanter (raw.drop 14) = some pl →
          submissionCount (parse_packet entropy d recv raw).1 = 1) := by
  constructor
  · intro w m v tr pre post hm ho hpost
    rw [gateRun_append]
    rcases gateRun_heartbeats_cases w pre with hpre | hpre
    · rw [hpre]
      have hcomp : is_complete (update_slot w.slots m v) = true :=
        is_complete_fill_last w.slots m v hm ho
      simp only [gateRun, gateStep, hcomp, if_true]
      rw [gateRun_heartbeats_idle]
      rfl
    · rw [hpre]
      have hnc : is_complete (update_slot emptySlots m v) = false :=
        not_complete_single m v
      simp only [gateRun, gateStep, hnc, Bool.false_eq_true, if_false]
      rw [gateRun_heartbeats_fresh (update_slot emptySlots m v) tr post
        (fun t ht => by
          have h1 := hpost t ht
          have h2 : WINDOW_TIMEOUT = 60 := rfl
          omega)]
      rfl
  · intro entropy d recv raw
    constructor
    · unfold parse_packet
      cases he : decodeEtherType raw with
      | none => simp [submissionCount]
      | some et =>
        by_cases h : et = ETHERTYPE_PLANTER
        · subst h
          cases hp : decodePlanter (raw.drop 14) <;> simp [submissionCount]
        · simp [h, submissionCount]
    · intro het pl hpl
      simp [parse_packet, het, hpl, submissionCount]

namespace Controller

/-- Slot map for the C2 witness: slots 0–8 observed, slot 9 missing. -/
def nineOfTen : GateModel.Slots := fun i => if i = 9 then none else some 1

/-- Raw payload for the C2 witness: a well-formed 52-byte frame with
the Planter EtherType `0x1234`. -/
def planterRaw : List Nat := List.replicate 12 0 ++ [0x12, 0x34] ++ List.replicate 38 0

end Controller

open Controller GateModel in
/-- Witness for C2: a stale pre-heartbeat at t=100, the completing
reading for slot 9 at t=20, and a concurrent post-heartbeat at t=30
produce exactly one submission; and the controller submits exactly
once for the well-formed payload `planterRaw`. -/
theorem exactly_once_submission_witness :
    ((GateModel.gateRun (some ⟨nineOfTen, 0⟩)
      ([100].map GateEvent.heartbeat ++
        GateEvent.reading 9 2 20 :: [30].map GateEvent.heartbeat)).2 = 1) ∧
    submissionCount (parse_packet (fun _ => 0) 0 0 planterRaw).1 = 1 := by
  constructor
  · exact exactly_once_submission.1 ⟨nineOfTen, 0⟩ 9 2 20 [100] [30] (by decide)
      (by decide) (by decide)
  · obtain ⟨pl0, hpl0⟩ : ∃ pl0, decodePlanter (planterRaw.drop 14) = some pl0 := ⟨_, rfl⟩
    exact (exactly_once_submission.2 (fun _ => 0) 0 0 planterRaw).2 (by decide) pl0 hpl0

namespace Controller

/-- Counterexample packet for C1: patient 1000 with slots 0–5 observed
(value 1) and slots 6–9 unobserved (value 0). -/
def sixOfTenPkt : Planter :=
  ⟨0x50, 0x34, 1, 1, 1000, 0, fun i => if i < 6 then 1 else 0, 0⟩

end Controller

open Controller in
/-- C1 counterexample: on a feature vector for patient 1000 with only
slots 0–5 observed, the controller imputes nothing — the audit log
receives no rows and slots 6–9 remain 0 in the submitted packet —
contradicting the claim that slots 6–9 receive imputed values and are
logged. -/
theorem forced_submission_counterexample :
    (processPlanter (fun _ => 0) 0 sixOfTenPkt 0).2.1 = [] ∧
    getFeature (processPlanter (fun _ => 0) 0 sixOfTenPkt 0).1 6 = 0 ∧
    getFeature (processPlanter (fun _ => 0) 0 sixOfTenPkt 0).1 7 = 0 ∧
    getFeature (processPlanter (fun _ => 0) 0 sixOfTenPkt 0).1 8 = 0 ∧
    getFeature (processPlanter (fun _ => 0) 0 sixOfTenPkt 0).1 9 = 0 := by
  decide

open Controller in
/-- C1 (amended): on every finalized feature vector, every zero-valued
(unobserved) slot among sensors 0–4 receives an imputed value — a
positive synthetic value logged with one audit row — while sensors 5–9
are skipped by the imputation loop: their carried values are passed
through unchanged and never logged. -/
theorem forced_submission_imputes_numeric_slots (entropy : Nat → Nat)
    (recv : Nat) (pl : Planter) (d : Nat) :
    (∀ sid, sid < 5 → getFeature pl sid = 0 →
      ∃ r, getFeature (processPlanter entropy recv pl d).1 sid = impute_value r sid ∧
        0 < getFeature (processPlanter entropy recv pl d).1 sid ∧
        (⟨recv, pl.patient_id, sid, 0, impute_value r sid⟩ : LogRow) ∈
          (processPlanter entropy recv pl d).2.1) ∧
    ∀ sid, 5 ≤ sid →
      getFeature (processPlanter entropy recv pl d).1 sid = getFeature pl sid ∧
      ∀ row ∈ (processPlanter entropy recv pl d).2.1, row.sensor_id ≠ sid := by
  unfold processPlanter
  constructor
  · intro sid h5 hz
    have hns : sid ∉ skipSlots := by
      simp only [skipSlots, List.mem_cons, List.not_mem_nil, or_false]
      omega
    obtain ⟨r, h1, h2⟩ := imputeLoop_zero_slot entropy recv pl.patient_id
      (List.range 10) pl d sid (List.nodup_range 10)
      (List.mem_range.mpr (by omega)) hns hz
    refine ⟨r, h1, ?_, h2⟩
    rw [h1]
    exact impute_value_pos_of_lt_five r sid h5
  · intro sid h5
    constructor
    · by_cases h10 : sid < 10
      · have hs : sid ∈ skipSlots := by
          simp only [skipSlots, List.mem_cons, List.not_mem_nil, or_false]
          omega
        exact imputeLoop_feature_skip entropy recv pl.patient_id (List.range 10) pl d sid hs
      · exact imputeLoop_feature_notmem entropy recv pl.patient_id (List.range 10) pl d sid
          (fun hmem => h10 (List.mem_range.mp hmem))
    · intro row hrow
      obtain ⟨h1, h2, _, _, _, _⟩ := imputeLoop_rows_mem entropy recv pl.patient_id
        (List.range 10) pl d (List.nodup_range 10) row hrow
      have hlt : row.sensor_id < 5 := by
        have h10 := List.mem_range.mp h1
        by_contra hge
        exact h2 (by
          simp only [skipSlots, List.mem_cons, List.not_mem_nil, or_false]
          omega)
      omega

namespace Controller

/-- Packet for the C1 witness: patient 7, slot 1 missing, other slots 3. -/
def oneMissingPkt : Planter := ⟨0x50, 0x34, 1, 1, 7, 0, fun i => if i = 1 then 0 else 3, 0⟩

end Controller

open Controller in
/-- Witness for C1 (amended): on `oneMissingPkt`, slot 1 is imputed,
positive and logged, and the skipped slot 8 passes through unchanged. -/
theorem forced_submission_imputes_numeric_slots_witness :
    ((1 : Nat) < 5 ∧ getFeature oneMissingPkt 1 = 0 ∧ (5 : Nat) ≤ 8) ∧
    (∃ r, getFeature (processPlanter (fun _ => 4) 9 oneMissingPkt 0).1 1 =
        impute_value r 1 ∧
      0 < getFeature (processPlanter (fun _ => 4) 9 oneMissingPkt 0).1 1 ∧
      (⟨9, oneMissingPkt.patient_id, 1, 0, impute_value r 1⟩ : LogRow) ∈
        (processPlanter (fun _ => 4) 9 oneMissingPkt 0).2.1) ∧
    getFeature (processPlanter (fun _ => 4) 9 oneMissingPkt 0).1 8 =
      getFeature oneMissingPkt 8 :=
  ⟨⟨by decide, by decide, by decide⟩,
    (forced_submission_imputes_numeric_slots (fun _ => 4) 9 oneMissingPkt 0).1 1
      (by decide) (by decide),
    ((forced_submission_imputes_numeric_slots (fun _ => 4) 9 oneMissingPkt 0).2 8
      (by decide)).1⟩

namespace Controller

/-- Counterexample packet for C10: slot 5 (AVPU) carries the legitimate
observed value 0; all other slots are non-zero. -/
def avpuZeroPkt : Planter := ⟨0x50, 0x34, 1, 1, 42, 0, fun i => if i = 5 then 0 else 1, 0⟩

end Controller

open Controller in
/-- C10 counterexample: slot 5 of `avpuZeroPkt` carries the value 0,
yet the controller imputes nothing for it — no audit row is written
and the field stays 0 — so a slot is not imputed exactly when its
value is 0: the zero-as-missing classification applies only to slots
0–4. -/
theorem missing_iff_zero_counterexample :
    getFeature avpuZeroPkt 5 = 0 ∧
    (processPlanter (fun _ => 0) 0 avpuZeroPkt 0).2.1 = [] ∧
    getFeature (processPlanter (fun _ => 0) 0 avpuZeroPkt 0).1 5 = 0 := by
  decide

open Controller in
/-- C10 (amended): the controller classifies a slot as missing iff its
carried value is 0 and the slot is one of the sensors 0–4: a slot is
imputed (has an audit row) exactly when `sid < 5` and its value is 0,
and an observed legitimate 0 in slots 0–4 is indistinguishable from an
absent reading — it is replaced by a positive synthetic value.  Slots
5–9 are never imputed, whatever their value. -/
theorem missing_iff_zero_amended (entropy : Nat → Nat) (recv : Nat)
    (pl : Planter) (d : Nat) (sid : Nat) :
    ((∃ row ∈ (processPlanter entropy recv pl d).2.1, row.sensor_id = sid) ↔
      (sid < 5 ∧ getFeature pl sid = 0)) ∧
    (sid < 5 → getFeature pl sid = 0 →
      0 < getFeature (processPlanter entropy recv pl d).1 sid) := by
  unfold processPlanter
  constructor
  · constructor
    · rintro ⟨row, hrow, hsid⟩
      obtain ⟨h1, h2, _, _, _, h6⟩ := imputeLoop_rows_mem entropy recv pl.patient_id
        (List.range 10) pl d (List.nodup_range 10) row hrow
      have h10 := List.mem_range.mp h1
      have hlt : row.sensor_id < 5 := by
        by_contra hge
        exact h2 (by
          simp only [skipSlots, List.mem_cons, List.not_mem_nil, or_false]
          omega)
      exact ⟨hsid ▸ hlt, hsid ▸ h6⟩
    · rintro ⟨h5, hz⟩
      have hns : sid ∉ skipSlots := by
        simp only [skipSlots, List.mem_cons, List.not_mem_nil, or_false]
        omega
      obtain ⟨r, _, hmem⟩ := imputeLoop_zero_slot entropy recv pl.patient_id
        (List.range 10) pl d sid (List.nodup_range 10)
        (List.mem_range.mpr (by omega)) hns hz
      exact ⟨_, hmem, rfl⟩
  · intro h5 hz
    have hns : sid ∉ skipSlots := by
      simp only [skipSlots, List.mem_cons, List.not_mem_nil, or_false]
      omega
    obtain ⟨r, h1, _⟩ := imputeLoop_zero_slot entropy recv pl.patient_id
      (List.range 10) pl d sid (List.nodup_range 10)
      (List.mem_range.mpr (by omega)) hns hz
    rw [h1]
    exact impute_value_pos_of_lt_five r sid h5

namespace Controller

/-- Packet for the C10 witness: slot 2 missing, every other slot 6. -/
def pulseMissingPkt : Planter := ⟨0x50, 0x34, 1, 1, 8, 0, fun i => if i = 2 then 0 else 6, 0⟩

end Controller

open Controller in
/-- Witness for C10 (amended): slot 2 of `pulseMissingPkt` is imputed
(an audit row names it) and its replacement value is positive. -/
theorem missing_iff_zero_amended_witness :
    ((2 : Nat) < 5 ∧ getFeature pulseMissingPkt 2 = 0) ∧
    (∃ row ∈ (processPlanter (fun _ => 1) 4 pulseMissingPkt 0).2.1,
      row.sensor_id = 2) ∧
    0 < getFeature (processPlanter (fun _ => 1) 4 pulseMissingPkt 0).1 2 :=
  ⟨⟨by decide, by decide⟩,
    (missing_iff_zero_amended (fun _ => 1) 4 pulseMissingPkt 0 2).1.mpr
      ⟨by decide, by decide⟩,
    (missing_iff_zero_amended (fun _ => 1) 4 pulseMissingPkt 0 2).2
      (by decide) (by decide)⟩
